import Mathlib

/-!
Verification of the p-median "Zebra" solver orchestration
(`src/p_median_zebra/solver.py`).

The solver-side code is embedded shallowly:

* a graph is a node count `n` together with a total distance function
  (the source requires a complete graph whose edges carry the integer
  Manhattan distance attribute `d`);
* the external HiGHS solver is an opaque oracle supplying, per solve,
  a terminal status and the solved variable values (rationals stand in
  for the solver's floats);
* model construction is recorded explicitly: the created threshold
  variables (`VarSpec`) and coverage constraints (`Cov`) are data, and
  `ValueError` / `AssertionError` / solver-failure `RuntimeError` paths
  become an `Except SolveErr` result.
-/

/-- A weighted complete graph: nodes are `0, …, n-1`, `dist i j` is the
edge attribute `d` between two distinct nodes (the value at `i = j` is
never consulted, mirroring a simple graph with no self-loops). -/
structure Graph where
  n : Nat
  dist : Nat → Nat → Nat

/-- Embeds `get_dist` (solver.py:99-102): distance of a node to itself
is 0 by convention, otherwise the edge weight. -/
def get_dist (G : Graph) (i j : Nat) : Nat :=
  if i = j then 0 else G.dist i j

/-- Embeds `compute_sorted_dist` (solver.py:13-30) at one node: the row
of the distance matrix (diagonal 0) is deduplicated and sorted
ascending, exactly what `np.unique` does. -/
def compute_sorted_dist (G : Graph) (i : Nat) : List Nat :=
  (((List.range G.n).map (fun j => get_dist G i j)).toFinset).sort (· ≤ ·)

/-- A coverage constraint `z[node][level] + Σ_{j ∈ ys} y[j] ≥ 1`.
`thresh` records the distance bound `dik` that the constraint was built
with; `ys` is the list of depot variables it sums, namely all nodes `j`
with `get_dist i j < dik`. -/
structure Cov where
  node : Nat
  level : Nat
  thresh : Nat
  ys : List Nat
  deriving DecidableEq, Repr

/-- Embeds `create_z_y_def_linexpr` (solver.py:134-143): the linear
expression `z[i][k] + Σ_{j : dist(i,j) < dik} y[j]` of the `≥ 1`
coverage constraint. -/
def create_z_y_def_linexpr (G : Graph) (i k dik : Nat) : Cov :=
  ⟨i, k, dik, (List.range G.n).filter (fun j => get_dist G i j < dik)⟩

/-- A created threshold variable `z[node][level]` with its objective
coefficient and bounds (`lb=0`, `ub=1` in the source). -/
structure VarSpec where
  node : Nat
  level : Nat
  obj : Int
  lb : Nat
  ub : Nat
  deriving DecidableEq, Repr

/-- The error outcomes of the solver orchestration: `invalidParameter`
for the `ValueError`s raised by the parameter checks, `solverFailure`
for the `RuntimeError` raised on a non-optimal solver status,
`assertionFailure` for the `assert k < len(dsorted[i])` in the column
generation loop, and `typeError` for the `TypeError` raised when a
linear expression is built over a `z` entry that was never created as
a solver variable: `z` is a `defaultdict` (solver.py:56), so such an
access fabricates a bare `object`, and the addition in
`create_z_y_def_linexpr` (solver.py:143) fails on it. -/
inductive SolveErr where
  | invalidParameter
  | solverFailure
  | assertionFailure
  | typeError
  deriving DecidableEq, Repr

/-- The threshold variables created by `add_z_variables` with a valid
`maxk` (solver.py:56-69): for each node `i`, levels
`k = 1, …, numz-1` with `numz = min(maxk+1, len(D[i]))` and objective
coefficient `D[i][k] - D[i][k-1]` (the `np.diff` of the distance list
with 0 prepended). -/
def zvarList (G : Graph) (D : Nat → List Nat) (m : Nat) : List VarSpec :=
  (List.range G.n).flatMap (fun i =>
    (List.range' 1 (min (m + 1) (D i).length - 1)).map (fun k =>
      ⟨i, k, ((D i).getD k 0 : Int) - ((D i).getD (k - 1) 0 : Int), 0, 1⟩))

/-- Embeds `add_z_variables` (solver.py:33-69), including its
`maxk` range check. -/
def add_z_variables (G : Graph) (D : Nat → List Nat) (maxk : Int) :
    Except SolveErr (List VarSpec) :=
  if (G.n : Int) ≤ maxk ∨ maxk < 0 then .error .invalidParameter
  else .ok (zvarList G D maxk.toNat)

/-- The coverage constraints added by `add_z_y_def_constraints` with a
valid `maxk` (solver.py:126-131): for each node `i` and each
`k = 1, …, last-1` with `last = min(maxk+1, len(D[i]))`, the constraint
`create_z_y_def_linexpr(i, k, D[i][k]) ≥ 1`. -/
def covList (G : Graph) (D : Nat → List Nat) (m : Nat) : List Cov :=
  (List.range G.n).flatMap (fun i =>
    (List.range' 1 (min (m + 1) (D i).length - 1)).map (fun k =>
      create_z_y_def_linexpr G i k ((D i).getD k 0)))

/-- Embeds `add_z_y_def_constraints` (solver.py:105-131), including its
`maxk` range check. -/
def add_z_y_def_constraints (G : Graph) (D : Nat → List Nat) (maxk : Int) :
    Except SolveErr (List Cov) :=
  if (G.n : Int) ≤ maxk ∨ maxk < 0 then .error .invalidParameter
  else .ok (covList G D maxk.toNat)

/-- The accumulated model: threshold variables, depot variables
(`y[i]` for each node, binary), the right-hand side `p` of the
cardinality constraint `Σ y[i] = p`, and the coverage constraints. -/
structure Model where
  zvars : List VarSpec
  yvars : List Nat
  card : Int
  cons : List Cov
  deriving DecidableEq, Repr

/-- Embeds `create_p_median_model` (solver.py:160-178): the `maxk`
range check, then variable creation (`add_z_variables`,
`add_y_variables`), the cardinality constraint
(`add_p_median_constraint`, recorded as `card = p`) and the coverage
constraints. -/
def create_p_median_model (G : Graph) (D : Nat → List Nat) (p maxk : Int) :
    Except SolveErr Model :=
  if (G.n : Int) ≤ maxk ∨ maxk < 0 then .error .invalidParameter
  else do
    let z ← add_z_variables G D maxk
    let y := List.range G.n
    let cons ← add_z_y_def_constraints G D maxk
    .ok ⟨z, y, p, cons⟩

/-- The saturation tolerance `1e-6` of the column generation loop
(solver.py:260), written with `mkRat` so that it evaluates. -/
def tol : ℚ := mkRat 1 1000000

/-- The binary rounding tolerance `1e-2` of depot extraction
(solver.py:157), written with `mkRat` so that it evaluates. -/
def ytol : ℚ := mkRat 1 100

/-- Sanity: `tol` is the literal `1e-6`. -/
theorem tol_eq : tol = 1 / 1000000 := by norm_num [tol]

/-- Sanity: `ytol` is the literal `1e-2`. -/
theorem ytol_eq : ytol = 1 / 100 := by norm_num [ytol]

/-- The saturated set of one loop iteration (solver.py:260): nodes `i`
whose variable `z[i][kdict[i]]` has solution value above `tol`.
`vals i k` is the solver's value for `z[i][k]`. -/
def saturated (n : Nat) (vals : Nat → Nat → ℚ) (kdict : Nat → Nat) : List Nat :=
  (List.range n).filter (fun i => tol < vals i (kdict i))

/-- What one extension pass of the loop body produces: the saturated
set, the newly created variables, the newly added coverage constraints,
and the updated level map. -/
structure StepOut where
  newk : List Nat
  vars : List VarSpec
  cons : List Cov
  kdict : Nat → Nat

/-- One body of the column generation loop after a successful solve
(solver.py:259-280): compute the saturated set; for each of its nodes
check `assert kdict[i]+1 < len(D[i])` and create
`z[i][kdict[i]+1]` with bounds `[0,1]` and objective
`D[i][kdict[i]+1] - D[i][kdict[i]]`, bump `kdict[i]`, and add the
coverage constraint at the new level and distance. -/
def cgStep (G : Graph) (D : Nat → List Nat) (vals : Nat → Nat → ℚ)
    (kdict : Nat → Nat) : Except SolveErr StepOut :=
  let newk := saturated G.n vals kdict
  if newk.all (fun i => kdict i + 1 < (D i).length) then
    .ok ⟨newk,
      newk.map (fun i => ⟨i, kdict i + 1,
        ((D i).getD (kdict i + 1) 0 : Int) - ((D i).getD (kdict i) 0 : Int), 0, 1⟩),
      newk.map (fun i =>
        create_z_y_def_linexpr G i (kdict i + 1) ((D i).getD (kdict i + 1) 0)),
      fun i => if i ∈ newk then kdict i + 1 else kdict i⟩
  else .error .assertionFailure

/-- The fixed iteration cap `range(10000)` of the loop
(solver.py:250). -/
def ITER_BOUND : Nat := 10000

/-- The level map initialisation `kdict = {i: maxk for i in G.nodes}`
(solver.py:248). -/
def initKdict (maxk : Nat) : Nat → Nat := fun _ => maxk

/-- The column generation loop (solver.py:250-284). `iter` is the
current iteration index, `fuel` the remaining iterations of
`range(10000)`, `last` the previously computed saturated set.
Each iteration: solve (the oracle `status` reports whether the status
is optimal — a non-optimal status raises), compute the saturated set,
break when it is empty, otherwise extend and continue. When the
iteration range is exhausted the loop falls through and the current
`kdict` together with the last saturated set is returned — no error is
raised. -/
def cgLoopAux (G : Graph) (D : Nat → List Nat) (vals : Nat → Nat → Nat → ℚ)
    (status : Nat → Bool) :
    Nat → Nat → (Nat → Nat) → List Nat →
    Except SolveErr ((Nat → Nat) × List Nat)
  | _, 0, kdict, last => .ok (kdict, last)
  | iter, fuel + 1, kdict, _ =>
    if status iter then
      match cgStep G D (vals iter) kdict with
      | .error e => .error e
      | .ok out =>
        if out.newk.isEmpty then .ok (kdict, out.newk)
        else cgLoopAux G D vals status (iter + 1) fuel out.kdict out.newk
    else .error .solverFailure

/-- Embeds `zebra_column_generation_lp` (solver.py:219-284): run the
loop from `kdict = {i: maxk}` for at most `ITER_BOUND` iterations and
return the final level map and the last saturated set. -/
def zebra_column_generation_lp (G : Graph) (D : Nat → List Nat)
    (vals : Nat → Nat → Nat → ℚ) (status : Nat → Bool) (maxk : Nat) :
    Except SolveErr ((Nat → Nat) × List Nat) :=
  cgLoopAux G D vals status 0 ITER_BOUND (initKdict maxk) []

/-- The levels of `z[i]` that exist as real solver variables once
column generation has produced the level map `kdict`:
`add_z_variables` created levels `1 … min(maxk+1, len(D[i])) - 1`
(solver.py:56-69), and each loop extension created exactly the level
`kdict[i]+1` of a saturated node immediately before setting `kdict[i]`
to it (solver.py:265-274, mirrored by the `vars` field of `cgStep`),
so the loop's contribution to node `i` is the contiguous block
`maxk+1 … kdict[i]`. Any other index of the `defaultdict` `z` holds no
variable — accessing it fabricates a bare `object`. -/
def zExistsAfter (maxk : Nat) (D : Nat → List Nat) (kdict : Nat → Nat)
    (i k : Nat) : Bool :=
  decide ((1 ≤ k ∧ k < min (maxk + 1) (D i).length) ∨
    (maxk + 1 ≤ k ∧ k ≤ kdict i))

/-- Embeds the closing-constraint step of `solve_p_median_zebra`
(solver.py:324-328): for each node `i` of the returned saturated set
it evaluates `create_z_y_def_linexpr` at level `kdict[i]+1` and
distance bound `dsorted[i][kdict[i]] + 1`; that evaluation reads
`z[i][kdict[i]+1]` (solver.py:143). `zex i k` says whether `z[i][k]`
was ever created: when the entry read is absent, the `defaultdict`
yields a bare `object` and the addition raises a `TypeError`, so no
constraint is added. -/
def add_closing_constraints (G : Graph) (D : Nat → List Nat)
    (zex : Nat → Nat → Bool) (kdict : Nat → Nat) (newk : List Nat) :
    Except SolveErr (List Cov) :=
  if newk.all (fun i => zex i (kdict i + 1)) then
    .ok (newk.map (fun i =>
      create_z_y_def_linexpr G i (kdict i + 1) ((D i).getD (kdict i) 0 + 1)))
  else .error .typeError

/-- Embeds `get_optimal_depots` (solver.py:146-157): nodes whose solved
`y` value exceeds the rounding tolerance. -/
def get_optimal_depots (n : Nat) (yvals : Nat → ℚ) : List Nat :=
  (List.range n).filter (fun i => ytol < yvals i)

/-- The opaque external solver, per top-level solve: `lpStatus iter` is
whether iteration `iter` of the LP loop ends with an optimal status,
`zvals iter i k` the corresponding solution value of `z[i][k]`,
`mipStatus` whether the final integer solve is optimal, and `yvals i`
the solved value of `y[i]`. -/
structure Oracle where
  lpStatus : Nat → Bool
  zvals : Nat → Nat → Nat → ℚ
  mipStatus : Bool
  yvals : Nat → ℚ

/-- Embeds `solve_p_median_mip` (solver.py:181-216): build the full
model with `maxk = len(G.nodes) - 1`, solve once as a MIP, raise on a
non-optimal status, and extract the depots. -/
def solve_p_median_mip (G : Graph) (p : Int) (orc : Oracle) :
    Except SolveErr (List Nat) := do
  let _M ← create_p_median_model G (compute_sorted_dist G) p ((G.n : Int) - 1)
  if orc.mipStatus then .ok (get_optimal_depots G.n orc.yvals)
  else .error .solverFailure

/-- Embeds `solve_p_median_zebra` (solver.py:287-347): remap
`maxk = -1` to `len(G.nodes) - 1`, check `maxk < len(G.nodes)`, build
the partial model, relax `y`, run column generation, attempt the
closing constraints for the returned saturated set (reading
`z[i][kdict[i]+1]`, which raises a `TypeError` whenever that level was
never materialised), restore integrality, solve the MIP and extract
the depots. -/
def solve_p_median_zebra (G : Graph) (p : Int) (maxk : Int) (orc : Oracle) :
    Except SolveErr (List Nat) :=
  let mk := if maxk = -1 then (G.n : Int) - 1 else maxk
  if (G.n : Int) ≤ mk then .error .invalidParameter
  else
    match create_p_median_model G (compute_sorted_dist G) p mk with
    | .error e => .error e
    | .ok _M =>
      match zebra_column_generation_lp G (compute_sorted_dist G) orc.zvals
          orc.lpStatus mk.toNat with
      | .error e => .error e
      | .ok (kdict, newk) =>
        match add_closing_constraints G (compute_sorted_dist G)
            (zExistsAfter mk.toNat (compute_sorted_dist G) kdict) kdict
            newk with
        | .error e => .error e
        | .ok _cl =>
          if orc.mipStatus then .ok (get_optimal_depots G.n orc.yvals)
          else .error .solverFailure

/-! ### Concrete instances used by witnesses and counterexamples -/

/-- A two-node graph with unit distance between its nodes. -/
def exG2 : Graph := ⟨2, fun _ _ => 1⟩

/-- The star of the test suite: centre 0 at unit distance from four
leaves, leaves at distance 2 from each other. -/
def exGstar : Graph := ⟨5, fun i j => if i = 0 ∨ j = 0 then 1 else 2⟩

/-- An oracle whose LP solves always succeed with all `z` values 0 and
whose MIP solve fails. -/
def orcFailMip : Oracle := ⟨fun _ => true, fun _ _ _ => 0, false, fun _ => 0⟩

/-- An oracle whose solves all succeed, with all `z` values 0 and `y`
values selecting exactly node 0. -/
def orcPick0 : Oracle :=
  ⟨fun _ => true, fun _ _ _ => 0, true, fun i => if i = 0 then 1 else 0⟩

/-- Example LP values: node 0 saturated, node 1 not. -/
def exVals0 : Nat → Nat → ℚ := fun i _ => if i = 0 then 1 else 0

/-- Example level map starting at level 0. -/
def exKd0 : Nat → Nat := fun _ => 0

/-- Example distance table with two levels per node. -/
def exD01 : Nat → List Nat := fun _ => [0, 1]

/-- A large path-shaped graph: 10002 nodes, distance the absolute
difference of indices, so every node's distance row is duplicate-free
and column generation can extend node 0 for more than 10000
iterations. -/
def exGbig : Graph := ⟨10002, fun i j => max i j - min i j⟩

/-- An oracle that keeps node 0 saturated forever: every LP solve is
optimal with `z[0][k] = 1` and all other `z` values 0; the MIP solve is
optimal with `y[0] = 1` and all other `y` values 0. -/
def orcBig : Oracle :=
  ⟨fun _ => true, fun _ i _ => if i = 0 then 1 else 0, true,
    fun i => if i = 0 then 1 else 0⟩

/-- A one-level distance table: no room to extend past level 0. -/
def exD0 : Nat → List Nat := fun _ => [0]

/-- LP values that saturate every node. -/
def exVals1 : Nat → Nat → ℚ := fun _ _ => 1

/-- The level map produced by the fall-through run of the loop on the
path graph under `orcBig`: node 0 extended 10000 times from the seed
`maxk = 1`, every other node left at the seed. -/
def exKdF : Nat → Nat := fun i => if i = 0 then 10001 else 1

/-! ### Generic helper lemmas -/

/-- The head of a sorted list containing 0 is 0. -/
theorem sorted_head_eq_zero (l : List Nat) (hs : l.Sorted (· ≤ ·))
    (h0 : 0 ∈ l) : l.head? = some 0 := by
  cases l with
  | nil => cases h0
  | cons a t =>
    rcases List.mem_cons.mp h0 with h | h
    · simp [← h]
    · have ha := List.rel_of_sorted_cons hs 0 h
      simp [Nat.le_zero.mp ha]

/-- Evaluation helper: sorting the finset of a list yields any
duplicate-free sorted list with the same elements. -/
theorem sort_toFinset_eval (l L : List Nat) (h : l.toFinset = L.toFinset)
    (hnd : L.Nodup) (hs : L.Sorted (· ≤ ·)) :
    l.toFinset.sort (· ≤ ·) = L := by
  rw [h]; exact (List.toFinset_sort _ hnd).mpr hs

/-- The distance table of the two-node graph at node 0. -/
theorem csd_exG2_0 : compute_sorted_dist exG2 0 = [0, 1] := by
  rw [compute_sorted_dist]
  exact sort_toFinset_eval _ _ (by decide) (by decide) (by decide)

/-- The distance table of the star graph at its centre: all four
leaves are at distance 1, so `np.unique` collapses the row to just
two entries. -/
theorem csd_exGstar_0 : compute_sorted_dist exGstar 0 = [0, 1] := by
  rw [compute_sorted_dist]
  exact sort_toFinset_eval _ _ (by decide) (by decide) (by decide)

/-!
### C9 — properties of the sorted distance table
-/

/-- C9: for every graph with at least one node (and, the distances
being natural numbers, non-negative weights between every pair of
nodes), `compute_sorted_dist` produces for every node `i < n` a
strictly increasing (hence duplicate-free) list of distances whose
first element is 0 and whose length is at most `n`. -/
theorem compute_sorted_dist_spec (G : Graph) (i : Nat) (hi : i < G.n) :
    (compute_sorted_dist G i).Sorted (· < ·) ∧
    (compute_sorted_dist G i).head? = some 0 ∧
    (compute_sorted_dist G i).length ≤ G.n := by
  refine ⟨Finset.sort_sorted_lt _, ?_, ?_⟩
  · apply sorted_head_eq_zero _ (Finset.sort_sorted _ _)
    rw [Finset.mem_sort, List.mem_toFinset]
    exact List.mem_map.mpr ⟨i, List.mem_range.mpr hi, by simp [get_dist]⟩
  · rw [compute_sorted_dist, Finset.length_sort]
    calc (((List.range G.n).map (fun j => get_dist G i j)).toFinset).card
        ≤ ((List.range G.n).map (fun j => get_dist G i j)).length :=
          List.toFinset_card_le _
      _ = G.n := by simp

/-- Witness for C9 at the concrete two-node graph. -/
theorem compute_sorted_dist_spec_witness :
    0 < exG2.n ∧
    ((compute_sorted_dist exG2 0).Sorted (· < ·) ∧
     (compute_sorted_dist exG2 0).head? = some 0 ∧
     (compute_sorted_dist exG2 0).length ≤ exG2.n) :=
  ⟨by decide, compute_sorted_dist_spec exG2 0 (by decide)⟩

/-!
### C8 — the coverage constraints of the model builder
-/

/-- C8: for a valid `maxk` and every node `i` and materialised level
`k` (that is, `1 ≤ k < min(maxk+1, len(D[i]))`), the model built by
`create_p_median_model` contains the coverage constraint
`z[i][k] + Σ_{j : dist(i,j) < D[i][k]} y[j] ≥ 1`; the sum ranges over
exactly the nodes `j` with `get_dist i j < D[i][k]`, and since
`get_dist i i = 0` the node's own `y[i]` is included precisely when
`D[i][k] > 0`. -/
theorem coverage_constraints_complete (G : Graph) (D : Nat → List Nat)
    (maxk : Int) (i k : Nat)
    (h0 : 0 ≤ maxk) (h1 : maxk < (G.n : Int)) (hi : i < G.n)
    (hk1 : 1 ≤ k) (hk2 : k < min (maxk.toNat + 1) (D i).length) :
    add_z_y_def_constraints G D maxk = .ok (covList G D maxk.toNat) ∧
    create_z_y_def_linexpr G i k ((D i).getD k 0) ∈ covList G D maxk.toNat ∧
    (create_z_y_def_linexpr G i k ((D i).getD k 0)).ys =
      (List.range G.n).filter (fun j => get_dist G i j < (D i).getD k 0) ∧
    (i ∈ (create_z_y_def_linexpr G i k ((D i).getD k 0)).ys ↔
      0 < (D i).getD k 0) ∧
    (∀ p M, create_p_median_model G D p maxk = .ok M →
      create_z_y_def_linexpr G i k ((D i).getD k 0) ∈ M.cons) := by
  have hcond : ¬((G.n : Int) ≤ maxk ∨ maxk < 0) := by omega
  have hmem : create_z_y_def_linexpr G i k ((D i).getD k 0) ∈
      covList G D maxk.toNat := by
    rw [covList]
    refine List.mem_flatMap.mpr ⟨i, List.mem_range.mpr hi, ?_⟩
    exact List.mem_map.mpr ⟨k, List.mem_range'_1.mpr ⟨hk1, by omega⟩, rfl⟩
  refine ⟨?_, hmem, rfl, ?_, ?_⟩
  · rw [add_z_y_def_constraints, if_neg hcond]
  · simp [create_z_y_def_linexpr, List.mem_filter, List.mem_range, get_dist, hi]
  · intro p M hM
    rw [create_p_median_model, if_neg hcond] at hM
    rw [add_z_variables, if_neg hcond] at hM
    rw [add_z_y_def_constraints, if_neg hcond] at hM
    simp only [bind, Except.bind, Except.ok.injEq] at hM
    rw [← hM]
    exact hmem

/-- Witness for C8 at the two-node graph with its real distance table,
`maxk = 1`, node 0, level 1. -/
theorem coverage_constraints_complete_witness :
    ((0 : Int) ≤ 1 ∧ (1 : Int) < (exG2.n : Int) ∧ 0 < exG2.n ∧ (1 : Nat) ≤ 1 ∧
      1 < min ((1 : Int).toNat + 1) ((compute_sorted_dist exG2) 0).length) ∧
    (add_z_y_def_constraints exG2 (compute_sorted_dist exG2) 1 =
        .ok (covList exG2 (compute_sorted_dist exG2) (1 : Int).toNat) ∧
      create_z_y_def_linexpr exG2 0 1 (((compute_sorted_dist exG2) 0).getD 1 0) ∈
        covList exG2 (compute_sorted_dist exG2) (1 : Int).toNat ∧
      (create_z_y_def_linexpr exG2 0 1
          (((compute_sorted_dist exG2) 0).getD 1 0)).ys =
        (List.range exG2.n).filter
          (fun j => get_dist exG2 0 j < ((compute_sorted_dist exG2) 0).getD 1 0) ∧
      (0 ∈ (create_z_y_def_linexpr exG2 0 1
          (((compute_sorted_dist exG2) 0).getD 1 0)).ys ↔
        0 < ((compute_sorted_dist exG2) 0).getD 1 0) ∧
      (∀ p M, create_p_median_model exG2 (compute_sorted_dist exG2) p 1 = .ok M →
        create_z_y_def_linexpr exG2 0 1
          (((compute_sorted_dist exG2) 0).getD 1 0) ∈ M.cons)) :=
  ⟨⟨by decide, by decide, by decide, by decide, by rw [csd_exG2_0]; decide⟩,
    coverage_constraints_complete exG2 (compute_sorted_dist exG2) 1 0 1
      (by decide) (by decide) (by decide) (by decide)
      (by rw [csd_exG2_0]; decide)⟩

/-!
### C3 — one iteration of the column generation loop
-/

/-- C3: in an iteration of the column-generation loop whose extension
does not hit the `assert` (every saturated node still has a next
distance level), the saturated set is exactly the set of nodes
`i < n` with `vals z[i][kdict[i]] > tol`; every saturated node — and
only those, each exactly once since the set is duplicate-free — gets
one new variable `z[i][kdict[i]+1]` with bounds `[0,1]` and objective
`D[i][kdict[i]+1] - D[i][kdict[i]]`, one new coverage constraint at the
new level and distance threshold, and `kdict[i]` incremented by one;
non-saturated nodes are untouched. -/
theorem cgStep_extends_saturated (G : Graph) (D : Nat → List Nat)
    (vals : Nat → Nat → ℚ) (kdict : Nat → Nat)
    (h : ∀ i ∈ saturated G.n vals kdict, kdict i + 1 < (D i).length) :
    ∃ out, cgStep G D vals kdict = .ok out ∧
      (∀ i, i ∈ out.newk ↔ (i < G.n ∧ tol < vals i (kdict i))) ∧
      out.newk.Nodup ∧
      out.vars = out.newk.map (fun i => ⟨i, kdict i + 1,
        ((D i).getD (kdict i + 1) 0 : Int) -
          ((D i).getD (kdict i) 0 : Int), 0, 1⟩) ∧
      out.cons = out.newk.map (fun i =>
        create_z_y_def_linexpr G i (kdict i + 1) ((D i).getD (kdict i + 1) 0)) ∧
      (∀ i ∈ out.newk, out.kdict i = kdict i + 1) ∧
      (∀ i, i ∉ out.newk → out.kdict i = kdict i ∧
        (∀ v ∈ out.vars, v.node ≠ i) ∧ (∀ c ∈ out.cons, c.node ≠ i)) := by
  have hall : (saturated G.n vals kdict).all
      (fun i => kdict i + 1 < (D i).length) = true :=
    List.all_eq_true.mpr (fun i hi => decide_eq_true (h i hi))
  have hstep : cgStep G D vals kdict = .ok
      ⟨saturated G.n vals kdict,
        (saturated G.n vals kdict).map (fun i => ⟨i, kdict i + 1,
          ((D i).getD (kdict i + 1) 0 : Int) -
            ((D i).getD (kdict i) 0 : Int), 0, 1⟩),
        (saturated G.n vals kdict).map (fun i =>
          create_z_y_def_linexpr G i (kdict i + 1) ((D i).getD (kdict i + 1) 0)),
        fun i => if i ∈ saturated G.n vals kdict then kdict i + 1
          else kdict i⟩ := by
    simp only [cgStep]
    rw [if_pos hall]
  refine ⟨_, hstep, ?_, ?_, rfl, rfl, ?_, ?_⟩
  · intro i
    simp [saturated, List.mem_filter, List.mem_range]
  · exact List.Nodup.filter _ (List.nodup_range G.n)
  · intro i hi
    exact if_pos hi
  · intro i hi
    refine ⟨if_neg hi, ?_, ?_⟩
    · intro v hv
      rcases List.mem_map.mp hv with ⟨j, hj, rfl⟩
      exact fun hji => hi (hji ▸ hj)
    · intro c hc
      rcases List.mem_map.mp hc with ⟨j, hj, rfl⟩
      exact fun hji => hi (hji ▸ hj)

/-- Witness for C3 at the two-node graph: node 0 is saturated and gets
extended, node 1 is not. -/
theorem cgStep_extends_saturated_witness :
    (∀ i ∈ saturated exG2.n exVals0 exKd0, exKd0 i + 1 < (exD01 i).length) ∧
    (∃ out, cgStep exG2 exD01 exVals0 exKd0 = .ok out ∧
      (∀ i, i ∈ out.newk ↔ (i < exG2.n ∧ tol < exVals0 i (exKd0 i))) ∧
      out.newk.Nodup ∧
      out.vars = out.newk.map (fun i => ⟨i, exKd0 i + 1,
        ((exD01 i).getD (exKd0 i + 1) 0 : Int) -
          ((exD01 i).getD (exKd0 i) 0 : Int), 0, 1⟩) ∧
      out.cons = out.newk.map (fun i =>
        create_z_y_def_linexpr exG2 i (exKd0 i + 1)
          ((exD01 i).getD (exKd0 i + 1) 0)) ∧
      (∀ i ∈ out.newk, out.kdict i = exKd0 i + 1) ∧
      (∀ i, i ∉ out.newk → out.kdict i = exKd0 i ∧
        (∀ v ∈ out.vars, v.node ≠ i) ∧ (∀ c ∈ out.cons, c.node ≠ i))) :=
  ⟨by decide, cgStep_extends_saturated exG2 exD01 exVals0 exKd0 (by decide)⟩

/-!
### C4 — monotonicity and bounds of the level map
-/

/-- A successful step's output: when `cgStep` returns `.ok out`, `out`
is the extension payload and every saturated node had a next level. -/
theorem cgStep_ok_inv (G : Graph) (D : Nat → List Nat)
    (vals : Nat → Nat → ℚ) (kdict : Nat → Nat) (out : StepOut)
    (hcs : cgStep G D vals kdict = .ok out) :
    out.newk = saturated G.n vals kdict ∧
    (∀ i ∈ out.newk, kdict i + 1 < (D i).length) ∧
    out.kdict = fun i => if i ∈ saturated G.n vals kdict then kdict i + 1
      else kdict i := by
  rw [cgStep] at hcs
  split at hcs
  case isTrue hall =>
    obtain rfl := (Except.ok.injEq _ _).mp hcs
    refine ⟨rfl, ?_, rfl⟩
    intro i hi
    exact of_decide_eq_true (List.all_eq_true.mp hall i hi)
  case isFalse => cases hcs

/-- The loop never decreases any entry of the level map, and preserves
the per-node bound `kdict[i] < len(D[i])` on nodes of the graph. -/
theorem cgLoop_kdict_invariant (G : Graph) (D : Nat → List Nat)
    (vals : Nat → Nat → Nat → ℚ) (status : Nat → Bool) :
    ∀ (fuel iter : Nat) (kdict : Nat → Nat) (last : List Nat)
      (kf : Nat → Nat) (nf : List Nat),
      (∀ i, i < G.n → kdict i < (D i).length) →
      cgLoopAux G D vals status iter fuel kdict last = .ok (kf, nf) →
      (∀ i, kdict i ≤ kf i) ∧ (∀ i, i < G.n → kf i < (D i).length) := by
  intro fuel
  induction fuel with
  | zero =>
    intro iter kdict last kf nf hb hrun
    simp only [cgLoopAux, Except.ok.injEq, Prod.mk.injEq] at hrun
    obtain ⟨rfl, rfl⟩ := hrun
    exact ⟨fun i => Nat.le_refl _, hb⟩
  | succ fuel ih =>
    intro iter kdict last kf nf hb hrun
    simp only [cgLoopAux] at hrun
    by_cases hst : status iter
    · rw [if_pos hst] at hrun
      cases hcs : cgStep G D (vals iter) kdict with
      | error e => rw [hcs] at hrun; cases hrun
      | ok out =>
        rw [hcs] at hrun
        simp only at hrun
        obtain ⟨hnewk, hext, hkd⟩ := cgStep_ok_inv G D (vals iter) kdict out hcs
        by_cases hemp : out.newk.isEmpty
        · rw [if_pos hemp] at hrun
          obtain ⟨rfl, rfl⟩ := (Prod.mk.injEq _ _ _ _).mp
            ((Except.ok.injEq _ _).mp hrun)
          exact ⟨fun i => Nat.le_refl _, hb⟩
        · rw [if_neg hemp] at hrun
          have hmono : ∀ i, kdict i ≤ out.kdict i := by
            intro i
            simp only [hkd]
            by_cases hi : i ∈ saturated G.n (vals iter) kdict
            · rw [if_pos hi]; exact Nat.le_succ _
            · rw [if_neg hi]
          have hb' : ∀ i, i < G.n → out.kdict i < (D i).length := by
            intro i hi
            simp only [hkd]
            by_cases him : i ∈ saturated G.n (vals iter) kdict
            · rw [if_pos him]
              exact hext i (hnewk ▸ him)
            · rw [if_neg him]
              exact hb i hi
          obtain ⟨h1, h2⟩ := ih (iter + 1) out.kdict out.newk kf nf hb' hrun
          exact ⟨fun i => Nat.le_trans (hmono i) (h1 i), h2⟩
    · rw [if_neg hst] at hrun
      cases hrun

/-- C4 (amended): throughout a run of the column generation loop every
entry of `kdict` is non-decreasing across iterations, and — provided
the starting map (in particular the initial `kdict[i] = maxk`) already
respects the per-node bound `kdict[i] ≤ len(D[i]) - 1` — that bound is
preserved at every node of the graph until the loop returns. The bound
at initialisation does not hold unconditionally: see the
counterexample `kdict_init_exceeds_table_cex`. -/
theorem kdict_monotone_bounded :
    (∀ (G : Graph) (D : Nat → List Nat) (vals : Nat → Nat → Nat → ℚ)
      (status : Nat → Bool) (iter fuel : Nat) (kdict : Nat → Nat)
      (last : List Nat) (kf : Nat → Nat) (nf : List Nat),
      (∀ i, i < G.n → kdict i < (D i).length) →
      cgLoopAux G D vals status iter fuel kdict last = .ok (kf, nf) →
      (∀ i, kdict i ≤ kf i) ∧ (∀ i, i < G.n → kf i < (D i).length)) ∧
    (∀ (G : Graph) (D : Nat → List Nat) (vals : Nat → Nat → Nat → ℚ)
      (status : Nat → Bool) (maxk : Nat) (kf : Nat → Nat) (nf : List Nat),
      (∀ i, i < G.n → maxk < (D i).length) →
      zebra_column_generation_lp G D vals status maxk = .ok (kf, nf) →
      (∀ i, maxk ≤ kf i) ∧ (∀ i, i < G.n → kf i < (D i).length)) := by
  constructor
  · intro G D vals status iter fuel kdict last kf nf hb hrun
    exact cgLoop_kdict_invariant G D vals status fuel iter kdict last kf nf hb hrun
  · intro G D vals status maxk kf nf hb hrun
    exact cgLoop_kdict_invariant G D vals status ITER_BOUND 0
      (initKdict maxk) [] kf nf hb hrun

/-- Witness for C4 (amended), applying the loop invariant to a
zero-iteration run on the two-node graph. -/
theorem kdict_monotone_bounded_witness :
    (∀ i, i < exG2.n → exKd0 i < (exD01 i).length) ∧
    ((∀ i, exKd0 i ≤ exKd0 i) ∧
      (∀ i, i < exG2.n → exKd0 i < (exD01 i).length)) :=
  ⟨by decide, kdict_monotone_bounded.1 exG2 exD01 (fun _ => exVals0)
    (fun _ => true) 0 0 exKd0 [] exKd0 [] (by decide) rfl⟩

/-- Counterexample to C4 as stated: on the five-node star graph of the
test suite, the default `maxk` is `n - 1 = 4` and passes the caller's
validity check `maxk < n`, yet the initial level map `kdict[i] = maxk`
violates `kdict[0] ≤ len(D[0]) - 1`, because the centre's distance row
deduplicates to only `[0, 1]`. -/
theorem kdict_init_exceeds_table_cex :
    ((exGstar.n : Int) - 1).toNat = 4 ∧
    (4 : Int) < (exGstar.n : Int) ∧
    initKdict 4 0 = 4 ∧
    (compute_sorted_dist exGstar 0).length = 2 ∧
    ¬ initKdict 4 0 ≤ (compute_sorted_dist exGstar 0).length - 1 := by
  refine ⟨by decide, by decide, rfl, ?_, ?_⟩
  · rw [csd_exGstar_0]
    rfl
  · rw [csd_exGstar_0]
    decide


/-- The loop never decreases any entry of the level map
(unconditionally: unlike the invariant, no bound hypothesis is
needed). -/
theorem cgLoop_kdict_mono (G : Graph) (D : Nat → List Nat)
    (vals : Nat → Nat → Nat → ℚ) (status : Nat → Bool) :
    ∀ (fuel iter : Nat) (kdict : Nat → Nat) (last : List Nat)
      (kf : Nat → Nat) (nf : List Nat),
      cgLoopAux G D vals status iter fuel kdict last = .ok (kf, nf) →
      ∀ i, kdict i ≤ kf i := by
  intro fuel
  induction fuel with
  | zero =>
    intro iter kdict last kf nf hrun i
    rw [cgLoopAux] at hrun
    obtain ⟨rfl, rfl⟩ := (Prod.mk.injEq _ _ _ _).mp
      ((Except.ok.injEq _ _).mp hrun)
    exact Nat.le_refl _
  | succ fuel ih =>
    intro iter kdict last kf nf hrun i
    rw [cgLoopAux] at hrun
    by_cases hst : status iter = true
    · rw [if_pos hst] at hrun
      cases hcs : cgStep G D (vals iter) kdict with
      | error e =>
        rw [hcs] at hrun
        exact Except.noConfusion hrun
      | ok out =>
        rw [hcs] at hrun
        obtain ⟨_hnewk, _hext, hkd⟩ := cgStep_ok_inv G D (vals iter) kdict out hcs
        have hrun2 : (if out.newk.isEmpty = true then
            (Except.ok (kdict, out.newk) :
              Except SolveErr ((Nat → Nat) × List Nat))
          else cgLoopAux G D vals status (iter + 1) fuel out.kdict out.newk) =
            Except.ok (kf, nf) := hrun
        by_cases hemp : out.newk.isEmpty = true
        · rw [if_pos hemp] at hrun2
          obtain ⟨rfl, rfl⟩ := (Prod.mk.injEq _ _ _ _).mp
            ((Except.ok.injEq _ _).mp hrun2)
          exact Nat.le_refl _
        · rw [if_neg hemp] at hrun2
          have hmono : kdict i ≤ out.kdict i := by
            simp only [hkd]
            by_cases hi : i ∈ saturated G.n (vals iter) kdict
            · rw [if_pos hi]
              exact Nat.le_succ _
            · rw [if_neg hi]
          exact Nat.le_trans hmono
            (ih (iter + 1) out.kdict out.newk kf nf hrun2 i)
    · rw [if_neg hst] at hrun
      exact Except.noConfusion hrun

/-- The level `kdict[i]+1` read by the closing-constraint step is never
a materialised `z` variable once the seed bound `maxk ≤ kdict i`
holds. -/
theorem zExistsAfter_next_false (maxk : Nat) (D : Nat → List Nat)
    (kdict : Nat → Nat) (i : Nat) (h : maxk ≤ kdict i) :
    zExistsAfter maxk D kdict i (kdict i + 1) = false := by
  simp only [zExistsAfter, decide_eq_false_iff_not]
  omega

/-- On a non-empty saturated set whose nodes satisfy `maxk ≤ kdict i`
(which every run of the loop guarantees, by monotonicity from the seed
`kdict = maxk`), the closing-constraint step fails with the
`TypeError` of `z[i][kdict[i]+1] + ...` on the fabricated bare
`object`. -/
theorem add_closing_constraints_err (G : Graph) (D : Nat → List Nat)
    (maxk : Nat) (kdict : Nat → Nat) (newk : List Nat)
    (hne : newk ≠ []) (hmono : ∀ i ∈ newk, maxk ≤ kdict i) :
    add_closing_constraints G D (zExistsAfter maxk D kdict) kdict newk =
      .error .typeError := by
  have hnall : ¬(newk.all
      (fun i => zExistsAfter maxk D kdict i (kdict i + 1)) = true) := by
    intro hall
    obtain ⟨i, hi⟩ := List.exists_mem_of_ne_nil newk hne
    have hb := List.all_eq_true.mp hall i hi
    rw [zExistsAfter_next_false maxk D kdict i (hmono i hi)] at hb
    exact Bool.noConfusion hb
  rw [add_closing_constraints, if_neg hnall]

/-- The closing-constraint step has a single error outcome: the
`TypeError`. -/
theorem add_closing_constraints_error_kind (G : Graph) (D : Nat → List Nat)
    (zex : Nat → Nat → Bool) (kdict : Nat → Nat) (newk : List Nat)
    (e : SolveErr)
    (h : add_closing_constraints G D zex kdict newk = .error e) :
    e = .typeError := by
  rw [add_closing_constraints] at h
  split at h
  · exact Except.noConfusion h
  · exact ((Except.error.injEq _ _).mp h).symm

/-- Any actual loop run that ends with a non-empty saturated set makes
the whole zebra solve fail with the closing-constraint `TypeError`
(for every caller-valid `maxk`). -/
theorem zebra_typeError_of_run (G : Graph) (p maxk : Int) (orc : Oracle)
    (kf : Nat → Nat) (nf : List Nat) (hn : 0 < G.n) (h1 : -1 ≤ maxk)
    (h2 : maxk < (G.n : Int))
    (hrun : zebra_column_generation_lp G (compute_sorted_dist G) orc.zvals
      orc.lpStatus (if maxk = -1 then (G.n : Int) - 1 else maxk).toNat =
      .ok (kf, nf))
    (hne : nf ≠ []) :
    solve_p_median_zebra G p maxk orc = .error .typeError := by
  have hmono : ∀ i,
      (if maxk = -1 then (G.n : Int) - 1 else maxk).toNat ≤ kf i := by
    have hrun2 := hrun
    rw [zebra_column_generation_lp] at hrun2
    exact cgLoop_kdict_mono G (compute_sorted_dist G) orc.zvals orc.lpStatus
      ITER_BOUND 0 _ [] kf nf hrun2
  rw [solve_p_median_zebra]
  set mk : Int := if maxk = -1 then (G.n : Int) - 1 else maxk with hmkdef
  have hmkb : 0 ≤ mk ∧ mk < (G.n : Int) := by
    rw [hmkdef]
    split
    · omega
    · omega
  obtain ⟨hmka, hmklt⟩ := hmkb
  rw [if_neg (by omega : ¬((G.n : Int) ≤ mk))]
  rw [create_p_median_model, if_neg (by omega)]
  rw [add_z_variables, if_neg (by omega)]
  rw [add_z_y_def_constraints, if_neg (by omega)]
  rw [hrun]
  have herr := add_closing_constraints_err G (compute_sorted_dist G) mk.toNat
    kf nf hne (fun i _ => hmono i)
  have hgoal : (match add_closing_constraints G (compute_sorted_dist G)
      (zExistsAfter mk.toNat (compute_sorted_dist G) kf) kf nf with
    | Except.error e => (Except.error e : Except SolveErr (List Nat))
    | Except.ok _cl =>
      if orc.mipStatus = true then
        Except.ok (get_optimal_depots G.n orc.yvals)
      else Except.error SolveErr.solverFailure) =
      Except.error SolveErr.typeError := by
    rw [herr]
  exact hgoal

/-!
### C7 — behaviour at the iteration bound and at exhausted levels
-/

/-- The distance table of the path graph at node 0 is the full range of
indices. -/
theorem csd_exGbig_0 : compute_sorted_dist exGbig 0 = List.range 10002 := by
  rw [compute_sorted_dist]
  have h1 : (List.range exGbig.n).map (fun j => get_dist exGbig 0 j) =
      List.range 10002 := by
    have h2 : ∀ j ∈ List.range exGbig.n, get_dist exGbig 0 j = j := by
      intro j _
      simp only [get_dist, exGbig]
      split <;> omega
    rw [List.map_congr_left h2]
    exact List.map_id _
  have h3 : (List.range 10002).toFinset = Finset.range 10002 := by
    ext x; simp
  rw [h1, h3, Finset.sort_range]

/-- Filtering `range m` with a predicate that holds only at 0 yields
the singleton `[0]`. -/
theorem filter_range_single (p : Nat → Bool) (m : Nat) (h0 : p 0 = true)
    (hrest : ∀ i, i ≠ 0 → p i = false) (hm : 0 < m) :
    (List.range m).filter p = [0] := by
  obtain ⟨k, rfl⟩ : ∃ k, m = k + 1 := ⟨m - 1, by omega⟩
  rw [List.range_succ_eq_map, List.filter_cons_of_pos h0]
  have hnil : ((List.range k).map Nat.succ).filter p = [] := by
    rw [List.filter_eq_nil_iff]
    intro a ha
    rcases List.mem_map.mp ha with ⟨b, _, rfl⟩
    simp [hrest (b + 1) b.succ_ne_zero]
  rw [hnil]

/-- Under `orcBig` the saturated set of every iteration is exactly
node 0, whatever the current level map. -/
theorem saturated_exGbig (iter : Nat) (g : Nat → Nat) :
    saturated exGbig.n (orcBig.zvals iter) g = [0] := by
  rw [saturated]
  apply filter_range_single
  · show decide (tol < (1 : ℚ)) = true
    decide
  · intro i hi
    have hz : orcBig.zvals iter i (g i) = if i = 0 then 1 else 0 := rfl
    rw [hz, if_neg hi]
    decide
  · decide

/-- Under `orcBig` the loop keeps extending node 0 until its fuel runs
out, and then returns — without error — the exact level map in which
node 0 was bumped once per iteration, together with the last saturated
set `[0]`. -/
theorem cgLoop_exGbig_full (fuel : Nat) :
    ∀ (iter : Nat) (g : Nat → Nat) (last : List Nat),
      g 0 + fuel ≤ 10001 →
      cgLoopAux exGbig (compute_sorted_dist exGbig) orcBig.zvals
          orcBig.lpStatus iter fuel g last =
        .ok (fun i => if i = 0 then g 0 + fuel else g i,
          if fuel = 0 then last else [0]) := by
  induction fuel with
  | zero =>
    intro iter g last _
    rw [cgLoopAux]
    have hg0 : (fun i => if i = 0 then g 0 + 0 else g i) = g := by
      funext i
      by_cases h : i = 0 <;> simp [h]
    rw [hg0]
    norm_num
  | succ fuel ih =>
    intro iter g last hg
    have hlen : ((compute_sorted_dist exGbig) 0).length = 10002 := by
      rw [csd_exGbig_0]; simp
    have hall : ([0] : List Nat).all
        (fun i => g i + 1 < ((compute_sorted_dist exGbig) i).length) = true := by
      simp only [List.all_cons, List.all_nil, Bool.and_true, hlen,
        decide_eq_true_eq]
      omega
    have hcs : cgStep exGbig (compute_sorted_dist exGbig) (orcBig.zvals iter) g
        = .ok ⟨[0],
          [0].map (fun i => ⟨i, g i + 1,
            (((compute_sorted_dist exGbig) i).getD (g i + 1) 0 : Int) -
              (((compute_sorted_dist exGbig) i).getD (g i) 0 : Int), 0, 1⟩),
          [0].map (fun i => create_z_y_def_linexpr exGbig i (g i + 1)
            (((compute_sorted_dist exGbig) i).getD (g i + 1) 0)),
          fun i => if i ∈ ([0] : List Nat) then g i + 1 else g i⟩ := by
      simp only [cgStep, saturated_exGbig iter g, hall, if_true]
    rw [cgLoopAux]
    rw [hcs]
    split
    case isFalse hst => exact absurd rfl hst
    case isTrue hst =>
      dsimp only
      simp only [List.isEmpty_cons, Bool.false_eq_true, if_false]
      have hg' : (fun i => if i ∈ ([0] : List Nat) then g i + 1 else g i) 0 + fuel
          ≤ 10001 := by
        simp
        omega
      rw [ih (iter + 1) _ [0] hg']
      refine congrArg Except.ok ?_
      refine Prod.ext ?_ ?_
      · funext i
        dsimp only
        by_cases h : i = 0
        · simp [h]
          omega
        · simp [h]
      · dsimp only
        simp

/-- Depot extraction under `orcBig` picks exactly node 0. -/
theorem depots_exGbig : get_optimal_depots exGbig.n orcBig.yvals = [0] := by
  rw [get_optimal_depots]
  apply filter_range_single
  · show decide (ytol < (1 : ℚ)) = true
    decide
  · intro i hi
    have hy : orcBig.yvals i = if i = 0 then 1 else 0 := rfl
    rw [hy, if_neg hi]
    decide
  · decide

/-- The fall-through run pinned exactly: on the path graph under
`orcBig`, column generation seeded with `maxk = 1` exhausts its whole
iteration range and returns the level map `exKdF` and the non-empty
saturated set `[0]` — successfully, raising nothing. -/
theorem zebra_lp_exGbig :
    zebra_column_generation_lp exGbig (compute_sorted_dist exGbig)
      orcBig.zvals orcBig.lpStatus 1 = .ok (exKdF, [0]) := by
  have hf : (fun i => if i = 0 then initKdict 1 0 + ITER_BOUND
      else initKdict 1 i) = exKdF := by
    funext i
    by_cases h : i = 0 <;> simp [h, initKdict, exKdF, ITER_BOUND]
  have hl : (if ITER_BOUND = 0 then ([] : List Nat) else [0]) = [0] := by
    norm_num [ITER_BOUND]
  rw [zebra_column_generation_lp,
    cgLoop_exGbig_full ITER_BOUND 0 (initKdict 1) []
      (by norm_num [initKdict, ITER_BOUND]), hf, hl]

/-- Counterexample to C7 as stated: with a solver oracle that keeps
node 0 saturated on every solve, the column generation loop on the
10002-node path graph (seeded with the valid cutoff `maxk = 1`) runs
through its entire 10000-iteration range with a non-empty saturated
set and returns `.ok` — it raises nothing, in particular no
`ConvergenceFailure`. The operation then does fail, but with the
accidental `TypeError` of the closing-constraint step, which reads the
never-created `z[0][kdict[0]+1] = z[0][10002]`, not with any
`ConvergenceFailure` surfaced by the loop's bound logic. -/
theorem iteration_bound_no_error_cex :
    zebra_column_generation_lp exGbig (compute_sorted_dist exGbig)
        orcBig.zvals orcBig.lpStatus 1 = .ok (exKdF, [0]) ∧
    solve_p_median_zebra exGbig 1 1 orcBig = .error .typeError := by
  refine ⟨zebra_lp_exGbig, ?_⟩
  have hrun : zebra_column_generation_lp exGbig (compute_sorted_dist exGbig)
      orcBig.zvals orcBig.lpStatus
      (if (1 : Int) = -1 then (exGbig.n : Int) - 1 else 1).toNat =
      .ok (exKdF, [0]) := by
    have hmk : (if (1 : Int) = -1 then (exGbig.n : Int) - 1 else 1) = 1 := by
      decide
    rw [hmk, Int.toNat_one]
    exact zebra_lp_exGbig
  exact zebra_typeError_of_run exGbig 1 1 orcBig exKdF [0] (by decide)
    (by decide) (by decide) hrun (by decide)

/-- C7 (amended): if, on an iteration with optimal solver status, some
saturated node has no further distance level to extend to
(`kdict[i]+1 ≥ len(D[i])`), the step and hence the loop fail with a
fatal error (the `assert`, an `AssertionError` rather than a dedicated
`ConvergenceFailure`) and no level map — hence no depot set — is
produced. Reaching the fixed iteration bound, by contrast, raises no
error inside the loop: when the fuel of `range(10000)` runs out the
loop returns `.ok` with the current level map and the last saturated
set, even if that set is non-empty. In that fall-through case the
operation still produces no depot set, but not through any
`ConvergenceFailure`: the finaliser reads the never-created
`z[i][kdict[i]+1]` and the whole solve fails with a `TypeError`. -/
theorem exhausted_level_errors :
    (∀ (G : Graph) (D : Nat → List Nat) (vals : Nat → Nat → ℚ)
      (kdict : Nat → Nat),
      (∃ i ∈ saturated G.n vals kdict, ¬(kdict i + 1 < (D i).length)) →
      cgStep G D vals kdict = .error .assertionFailure) ∧
    (∀ (G : Graph) (D : Nat → List Nat) (vals : Nat → Nat → Nat → ℚ)
      (status : Nat → Bool) (iter fuel : Nat) (kdict : Nat → Nat)
      (last : List Nat),
      status iter = true →
      (∃ i ∈ saturated G.n (vals iter) kdict, ¬(kdict i + 1 < (D i).length)) →
      cgLoopAux G D vals status iter (fuel + 1) kdict last =
        .error .assertionFailure) ∧
    (∀ (G : Graph) (D : Nat → List Nat) (vals : Nat → Nat → Nat → ℚ)
      (status : Nat → Bool) (iter : Nat) (kdict : Nat → Nat) (last : List Nat),
      cgLoopAux G D vals status iter 0 kdict last = .ok (kdict, last)) ∧
    (∀ (G : Graph) (p maxk : Int) (orc : Oracle) (kf : Nat → Nat)
      (nf : List Nat), 0 < G.n → -1 ≤ maxk → maxk < (G.n : Int) →
      zebra_column_generation_lp G (compute_sorted_dist G) orc.zvals
        orc.lpStatus (if maxk = -1 then (G.n : Int) - 1 else maxk).toNat =
        .ok (kf, nf) →
      nf ≠ [] →
      solve_p_median_zebra G p maxk orc = .error .typeError) := by
  have hstep : ∀ (G : Graph) (D : Nat → List Nat) (vals : Nat → Nat → ℚ)
      (kdict : Nat → Nat),
      (∃ i ∈ saturated G.n vals kdict, ¬(kdict i + 1 < (D i).length)) →
      cgStep G D vals kdict = .error .assertionFailure := by
    intro G D vals kdict h
    obtain ⟨i, hi, hviol⟩ := h
    have hnall : ¬((saturated G.n vals kdict).all
        (fun i => kdict i + 1 < (D i).length) = true) := by
      intro hall
      exact hviol (of_decide_eq_true (List.all_eq_true.mp hall i hi))
    rw [cgStep, if_neg hnall]
  refine ⟨hstep, ?_, ?_, ?_⟩
  · intro G D vals status iter fuel kdict last hst h
    rw [cgLoopAux, if_pos hst, hstep G D (vals iter) kdict h]
  · intro G D vals status iter kdict last
    rw [cgLoopAux]
  · intro G p maxk orc kf nf hn h1 h2 hrun hne
    exact zebra_typeError_of_run G p maxk orc kf nf hn h1 h2 hrun hne

/-- Witness for C7 (amended): on the two-node graph with a one-entry
distance table, a saturated node has no next level and the step fails
with the assertion error. -/
theorem exhausted_level_errors_witness :
    (∃ i ∈ saturated exG2.n exVals1 exKd0, ¬(exKd0 i + 1 < (exD0 i).length)) ∧
    cgStep exG2 exD0 exVals1 exKd0 = .error .assertionFailure :=
  ⟨by decide, exhausted_level_errors.1 exG2 exD0 exVals1 exKd0 (by decide)⟩

/-!
### C2 — the closing constraints of the finaliser
-/

/-- Counterexample to C2 as stated: in the reachable fall-through run
on the path graph (the loop returns `kdict = exKdF` and the saturated
set `[0]`), the finaliser adds no closing coverage constraint for
node 0 at all — evaluating the constraint expression at level
`kdict[0]+1 = 10002` reads the never-created `z[0][10002]` and the step
fails with a `TypeError`. Moreover the claimed threshold
`D[0][kdict[0]+1]` does not even exist: `kdict[0]+1` equals the length
of the distance table of node 0. -/
theorem closing_constraint_not_added_cex :
    zebra_column_generation_lp exGbig (compute_sorted_dist exGbig)
        orcBig.zvals orcBig.lpStatus 1 = .ok (exKdF, [0]) ∧
    add_closing_constraints exGbig (compute_sorted_dist exGbig)
        (zExistsAfter 1 (compute_sorted_dist exGbig) exKdF) exKdF [0] =
      .error .typeError ∧
    (compute_sorted_dist exGbig 0).length ≤ exKdF 0 + 1 := by
  refine ⟨zebra_lp_exGbig, ?_, ?_⟩
  · exact add_closing_constraints_err exGbig (compute_sorted_dist exGbig) 1
      exKdF [0] (by decide) (by decide)
  · rw [csd_exGbig_0]
    simp [exKdF]

/-- C2 (amended): after column generation returns `(kdict, newk)` from
an actual run, the finaliser is meant to add, for each node `i` of
`newk`, a coverage constraint at level `kdict[i]+1` with distance bound
`D[i][kdict[i]] + 1` (one past the current level, not the spec's
`D[i][kdict[i]+1]`); but the `z[i][kdict[i]+1]` it reads was never
created — every entry of the returned `kdict` is at least the seed
`maxk`, and no materialised `z` level of node `i` exceeds `kdict[i]` —
so when `newk` is non-empty the step fails with a `TypeError` and no
closing constraint is ever added, and when `newk` is empty (every
normally converged run) there is nothing to add. -/
theorem closing_constraint_spec (G : Graph) (D : Nat → List Nat)
    (vals : Nat → Nat → Nat → ℚ) (status : Nat → Bool) (maxk : Nat)
    (kf : Nat → Nat) (nf : List Nat)
    (hrun : zebra_column_generation_lp G D vals status maxk = .ok (kf, nf)) :
    (∀ i, maxk ≤ kf i) ∧
    (∀ i ∈ nf, zExistsAfter maxk D kf i (kf i + 1) = false) ∧
    (nf = [] →
      add_closing_constraints G D (zExistsAfter maxk D kf) kf nf = .ok []) ∧
    (nf ≠ [] →
      add_closing_constraints G D (zExistsAfter maxk D kf) kf nf =
        .error .typeError) := by
  have hmono : ∀ i, maxk ≤ kf i := by
    rw [zebra_column_generation_lp] at hrun
    exact cgLoop_kdict_mono G D vals status ITER_BOUND 0 (initKdict maxk) []
      kf nf hrun
  refine ⟨hmono, ?_, ?_, ?_⟩
  · intro i _
    exact zExistsAfter_next_false maxk D kf i (hmono i)
  · intro h
    subst h
    rfl
  · intro h
    exact add_closing_constraints_err G D maxk kf nf h (fun i _ => hmono i)

/-- Witness for C2 (amended), instantiated on the pinned fall-through
run of the path graph. -/
theorem closing_constraint_spec_witness :
    zebra_column_generation_lp exGbig (compute_sorted_dist exGbig)
        orcBig.zvals orcBig.lpStatus 1 = .ok (exKdF, [0]) ∧
    ((∀ i, 1 ≤ exKdF i) ∧
      (∀ i ∈ ([0] : List Nat),
        zExistsAfter 1 (compute_sorted_dist exGbig) exKdF i (exKdF i + 1) =
          false) ∧
      (([0] : List Nat) = [] →
        add_closing_constraints exGbig (compute_sorted_dist exGbig)
          (zExistsAfter 1 (compute_sorted_dist exGbig) exKdF) exKdF [0] =
          .ok []) ∧
      (([0] : List Nat) ≠ [] →
        add_closing_constraints exGbig (compute_sorted_dist exGbig)
          (zExistsAfter 1 (compute_sorted_dist exGbig) exKdF) exKdF [0] =
          .error .typeError)) :=
  ⟨zebra_lp_exGbig,
    closing_constraint_spec exGbig (compute_sorted_dist exGbig) orcBig.zvals
      orcBig.lpStatus 1 exKdF [0] zebra_lp_exGbig⟩

/-!
### C5, C6, C10 — parameter validation and the `maxk = -1` default
-/

/-- The loop can only fail with a solver failure or the extension
`assert`; it never raises the parameter `ValueError`. -/
theorem cgLoopAux_ne_invalidParameter (G : Graph) (D : Nat → List Nat)
    (vals : Nat → Nat → Nat → ℚ) (status : Nat → Bool) :
    ∀ (fuel iter : Nat) (kdict : Nat → Nat) (last : List Nat),
      cgLoopAux G D vals status iter fuel kdict last ≠
        .error .invalidParameter := by
  intro fuel
  induction fuel with
  | zero =>
    intro iter kdict last h
    rw [cgLoopAux] at h
    exact Except.noConfusion h
  | succ fuel ih =>
    intro iter kdict last h
    rw [cgLoopAux] at h
    by_cases hst : status iter
    · rw [if_pos hst] at h
      cases hcs : cgStep G D (vals iter) kdict with
      | error e =>
        rw [hcs] at h
        rw [cgStep] at hcs
        split at hcs
        · exact Except.noConfusion hcs
        · obtain rfl := (Except.error.injEq _ _).mp hcs
          simp at h
      | ok out =>
        rw [hcs] at h
        simp only at h
        by_cases hemp : out.newk.isEmpty
        · rw [if_pos hemp] at h
          exact Except.noConfusion h
        · rw [if_neg hemp] at h
          exact ih (iter + 1) out.kdict out.newk h
    · rw [if_neg hst] at h
      simp at h

/-- Unfolding `solve_p_median_mip` for a non-empty graph: the full
model (with `maxk = n - 1`) is always built without a parameter error,
and the outcome depends only on the MIP solve. -/
theorem mip_small (G : Graph) (p : Int) (orc : Oracle) (hn : 0 < G.n) :
    solve_p_median_mip G p orc =
      if orc.mipStatus then .ok (get_optimal_depots G.n orc.yvals)
      else .error .solverFailure := by
  rw [solve_p_median_mip]
  rw [create_p_median_model, if_neg (by omega)]
  rw [add_z_variables, if_neg (by omega)]
  rw [add_z_y_def_constraints, if_neg (by omega)]
  rfl

/-- One converged iteration: when the solve is optimal and nothing is
saturated, the loop stops at once and returns the current level map
with the empty saturated set. -/
theorem cgLoop_converged (G : Graph) (D : Nat → List Nat)
    (vals : Nat → Nat → Nat → ℚ) (status : Nat → Bool) (iter fuel : Nat)
    (kdict : Nat → Nat) (last : List Nat) (hst : status iter = true)
    (hsat : saturated G.n (vals iter) kdict = []) :
    cgLoopAux G D vals status iter (fuel + 1) kdict last = .ok (kdict, []) := by
  have hcs : cgStep G D (vals iter) kdict = .ok ⟨[], [], [], kdict⟩ := by
    simp [cgStep, hsat]
  rw [cgLoopAux, if_pos hst, hcs]
  rfl

/-- Column generation that converges on the very first solve returns
the initial level map and the empty saturated set. -/
theorem zebra_lp_converged (G : Graph) (D : Nat → List Nat)
    (vals : Nat → Nat → Nat → ℚ) (status : Nat → Bool) (maxk : Nat)
    (hst : status 0 = true)
    (hsat : saturated G.n (vals 0) (initKdict maxk) = []) :
    zebra_column_generation_lp G D vals status maxk =
      .ok (initKdict maxk, []) := by
  rw [zebra_column_generation_lp, show ITER_BOUND = 9999 + 1 from rfl]
  exact cgLoop_converged G D vals status 0 9999 (initKdict maxk) [] hst hsat

/-- Unfolding `solve_p_median_zebra` at the default `maxk = -1` for a
non-empty graph whose first LP solve is optimal and unsaturated: no
parameter error is raised for any `p`, and the outcome depends only on
the MIP solve. -/
theorem zebra_small (G : Graph) (p : Int) (orc : Oracle) (hn : 0 < G.n)
    (hst : orc.lpStatus 0 = true)
    (hsat : saturated G.n (orc.zvals 0)
      (initKdict ((G.n : Int) - 1).toNat) = []) :
    solve_p_median_zebra G p (-1) orc =
      if orc.mipStatus then .ok (get_optimal_depots G.n orc.yvals)
      else .error .solverFailure := by
  rw [solve_p_median_zebra, if_pos rfl]
  rw [if_neg (by omega : ¬((G.n : Int) ≤ (G.n : Int) - 1))]
  rw [create_p_median_model, if_neg (by omega)]
  rw [add_z_variables, if_neg (by omega)]
  rw [add_z_y_def_constraints, if_neg (by omega)]
  rw [zebra_lp_converged G (compute_sorted_dist G) orc.zvals orc.lpStatus
    ((G.n : Int) - 1).toNat hst hsat]
  rfl

/-- Counterexample to C5 as stated: with `p = 3` on the two-node graph
(`p > n`), neither top-level solve operation raises the parameter
error; both build the model, attempt to solve, and surface the
infeasible cardinality constraint as a solver failure reported by the
oracle. -/
theorem p_invalid_not_raised_cex :
    solve_p_median_mip exG2 3 orcFailMip = .error .solverFailure ∧
    solve_p_median_zebra exG2 3 (-1) orcFailMip = .error .solverFailure ∧
    solve_p_median_mip exG2 3 orcFailMip ≠ .error .invalidParameter ∧
    solve_p_median_zebra exG2 3 (-1) orcFailMip ≠ .error .invalidParameter := by
  have hsat : saturated exG2.n (orcFailMip.zvals 0)
      (initKdict ((exG2.n : Int) - 1).toNat) = [] := by decide
  have hz := zebra_small exG2 3 orcFailMip (by decide) rfl hsat
  have hm := mip_small exG2 3 orcFailMip (by decide)
  have hz2 : solve_p_median_zebra exG2 3 (-1) orcFailMip =
      .error .solverFailure := by rw [hz]; rfl
  have hm2 : solve_p_median_mip exG2 3 orcFailMip =
      .error .solverFailure := by rw [hm]; rfl
  refine ⟨hm2, hz2, ?_, ?_⟩
  · rw [hm2]
    exact fun h => SolveErr.noConfusion ((Except.error.injEq _ _).mp h)
  · rw [hz2]
    exact fun h => SolveErr.noConfusion ((Except.error.injEq _ _).mp h)

/-- C5 (amended): the solve operations perform no validation of `p` at
all. For every non-empty graph and every `p` — in range or not — the
full MIP path never raises the parameter error and, whenever the
solver reports a non-optimal status, surfaces a solver failure after
the solve attempt; the zebra path likewise never raises the parameter
error for any caller-valid `maxk` (`-1` or `0 ≤ maxk < n`), whatever
`p` is. -/
theorem p_validation_absent (G : Graph) (p : Int) (orc : Oracle)
    (hn : 0 < G.n) :
    solve_p_median_mip G p orc ≠ .error .invalidParameter ∧
    (orc.mipStatus = false →
      solve_p_median_mip G p orc = .error .solverFailure) ∧
    (∀ maxk : Int, -1 ≤ maxk → maxk < (G.n : Int) →
      solve_p_median_zebra G p maxk orc ≠ .error .invalidParameter) := by
  refine ⟨?_, ?_, ?_⟩
  · rw [mip_small G p orc hn]
    intro h
    by_cases hms : orc.mipStatus = true
    · rw [if_pos hms] at h
      exact Except.noConfusion h
    · rw [if_neg hms] at h
      exact SolveErr.noConfusion ((Except.error.injEq _ _).mp h)
  · intro hms
    rw [mip_small G p orc hn, hms]
    simp
  · intro maxk h1 h2 h
    rw [solve_p_median_zebra] at h
    set mk : Int := if maxk = -1 then (G.n : Int) - 1 else maxk with hmk
    have hmk0 : 0 ≤ mk ∧ mk < (G.n : Int) := by
      rw [hmk]
      split
      · omega
      · omega
    obtain ⟨hmka, hmkb⟩ := hmk0
    rw [if_neg (by omega : ¬((G.n : Int) ≤ mk))] at h
    rw [create_p_median_model, if_neg (by omega)] at h
    rw [add_z_variables, if_neg (by omega)] at h
    rw [add_z_y_def_constraints, if_neg (by omega)] at h
    cases hz : zebra_column_generation_lp G (compute_sorted_dist G) orc.zvals
        orc.lpStatus mk.toNat with
    | error e =>
      rw [hz] at h
      simp only at h
      obtain rfl := (Except.error.injEq _ _).mp h
      rw [zebra_column_generation_lp] at hz
      exact cgLoopAux_ne_invalidParameter G (compute_sorted_dist G) orc.zvals
        orc.lpStatus ITER_BOUND 0 (initKdict mk.toNat) [] hz
    | ok pr =>
      obtain ⟨kf, nf⟩ := pr
      rw [hz] at h
      have h2 : (match add_closing_constraints G (compute_sorted_dist G)
          (zExistsAfter mk.toNat (compute_sorted_dist G) kf) kf nf with
        | Except.error e => (Except.error e : Except SolveErr (List Nat))
        | Except.ok _cl =>
          if orc.mipStatus = true then
            Except.ok (get_optimal_depots G.n orc.yvals)
          else Except.error SolveErr.solverFailure) =
          Except.error SolveErr.invalidParameter := h
      cases hcc : add_closing_constraints G (compute_sorted_dist G)
          (zExistsAfter mk.toNat (compute_sorted_dist G) kf) kf nf with
      | error e =>
        rw [hcc] at h2
        have h3 : (Except.error e : Except SolveErr (List Nat)) =
            .error .invalidParameter := h2
        obtain rfl := (Except.error.injEq _ _).mp h3
        exact SolveErr.noConfusion
          (add_closing_constraints_error_kind G (compute_sorted_dist G)
            (zExistsAfter mk.toNat (compute_sorted_dist G) kf) kf nf _ hcc)
      | ok cl =>
        rw [hcc] at h2
        have h3 : (if orc.mipStatus = true
            then (Except.ok (get_optimal_depots G.n orc.yvals) :
              Except SolveErr (List Nat))
            else .error .solverFailure) = .error .invalidParameter := h2
        by_cases hms : orc.mipStatus = true
        · rw [if_pos hms] at h3
          exact Except.noConfusion h3
        · rw [if_neg hms] at h3
          exact SolveErr.noConfusion ((Except.error.injEq _ _).mp h3)

/-- Witness for C5 (amended) at the two-node graph with `p = 3` and a
failing MIP oracle. -/
theorem p_validation_absent_witness :
    0 < exG2.n ∧
    (solve_p_median_mip exG2 3 orcFailMip ≠ .error .invalidParameter ∧
      (orcFailMip.mipStatus = false →
        solve_p_median_mip exG2 3 orcFailMip = .error .solverFailure) ∧
      (∀ maxk : Int, -1 ≤ maxk → maxk < (exG2.n : Int) →
        solve_p_median_zebra exG2 3 maxk orcFailMip ≠
          .error .invalidParameter)) :=
  ⟨by decide, p_validation_absent exG2 3 orcFailMip (by decide)⟩

/-- Counterexample to C6 as stated: `maxk = -1` is negative, yet
`solve_p_median_zebra` does not raise the parameter error — it
interprets `-1` as `n - 1` and solves through to a depot set. -/
theorem maxk_minus_one_not_error_cex :
    solve_p_median_zebra exG2 1 (-1) orcPick0 = .ok [0] ∧
    solve_p_median_zebra exG2 1 (-1) orcPick0 ≠ .error .invalidParameter := by
  have hsat : saturated exG2.n (orcPick0.zvals 0)
      (initKdict ((exG2.n : Int) - 1).toNat) = [] := by decide
  have hz := zebra_small exG2 1 orcPick0 (by decide) rfl hsat
  have hdep : get_optimal_depots exG2.n orcPick0.yvals = [0] := by decide
  have h2 : solve_p_median_zebra exG2 1 (-1) orcPick0 = .ok [0] := by
    rw [hz, hdep]
    rfl
  exact ⟨h2, by rw [h2]; exact fun h => Except.noConfusion h⟩

/-- C6 (amended): every `maxk < -1` and every `maxk ≥ n` make
`solve_p_median_zebra` raise the parameter error, for every oracle —
so the error is independent of, and prior to, any solver interaction;
the remaining negative value `maxk = -1` is instead remapped to
`n - 1` (see `maxk_minus_one_not_error_cex` and
`maxk_default_full_equiv`). -/
theorem maxk_out_of_range_invalid (G : Graph) (p maxk : Int) (orc : Oracle)
    (h : maxk < -1 ∨ (G.n : Int) ≤ maxk) :
    solve_p_median_zebra G p maxk orc = .error .invalidParameter := by
  rw [solve_p_median_zebra]
  have hne : ¬(maxk = -1) := by omega
  rw [if_neg hne]
  rcases h with h | h
  · rw [if_neg (by omega : ¬((G.n : Int) ≤ maxk))]
    rw [create_p_median_model, if_pos (Or.inr (by omega))]
  · rw [if_pos h]

/-- Witness for C6 (amended): `maxk = 5` on the two-node graph is
rejected with the parameter error. -/
theorem maxk_out_of_range_invalid_witness :
    ((5 : Int) < -1 ∨ (exG2.n : Int) ≤ 5) ∧
    solve_p_median_zebra exG2 1 5 orcPick0 = .error .invalidParameter :=
  ⟨Or.inr (by decide),
    maxk_out_of_range_invalid exG2 1 5 orcPick0 (Or.inr (by decide))⟩

/-- C10: calling `solve_p_median_zebra` with the default `maxk = -1`
behaves identically — same result on every oracle — to calling it with
`maxk = n - 1`, the full formulation in which every threshold level is
seeded; `-1` is not treated as an invalid parameter. -/
theorem maxk_default_full_equiv (G : Graph) (p : Int) (orc : Oracle) :
    solve_p_median_zebra G p (-1) orc =
      solve_p_median_zebra G p ((G.n : Int) - 1) orc := by
  rw [solve_p_median_zebra, solve_p_median_zebra]
  rw [if_pos rfl, ite_self]
